import Mathlib

/-!
Verification development for the `jinrong` financial-assistant orchestrator
(`src/agents/leader.py`, `src/agents/collector.py`, `src/agents/chaser.py`).

The Python data (JSON-ish dictionaries threaded through the orchestrator loop)
is embedded as an inductive `Val` type with association-list dictionaries that
follow Python `dict` semantics: setting an existing key replaces its value in
place, setting a new key appends it, and `d.update(o)` sets every key of `o`
into `d` in order.
-/

namespace Jinrong

/-- A Python/JSON value as it flows through the orchestrator:
`None`, booleans, numbers, strings, lists and dicts. -/
inductive Val where
  | vNone : Val
  | vBool : Bool → Val
  | vNum : Int → Val
  | vStr : String → Val
  | vList : List Val → Val
  | vDict : List (String × Val) → Val
deriving Repr

/-- A Python dictionary with string keys (association list, unique keys
when built from `[]` with `setKey`). -/
abbrev Dict := List (String × Val)

/-- `d[k] = v` in Python: replace the value of an existing key in place,
append a new key at the end. -/
def setKey : Dict → String → Val → Dict
  | [], k, v => [(k, v)]
  | (k', v') :: rest, k, v =>
    if k' = k then (k', v) :: rest else (k', v') :: setKey rest k v

/-- `d.get(k)` in Python: `some` of the stored value, or `none`. -/
def findKey : Dict → String → Option Val
  | [], _ => none
  | (k', v') :: rest, k => if k' = k then some v' else findKey rest k

/-- `k in d` in Python. -/
def hasKey (d : Dict) (k : String) : Bool := (findKey d k).isSome

/-- `d.update(other)` in Python: set every key of `other` into `d`, in order. -/
def dictUpdate (d other : Dict) : Dict :=
  other.foldl (fun acc kv => setKey acc kv.1 kv.2) d

/-- Python truthiness of a value (`if v:`). -/
def valTruthy : Val → Bool
  | .vNone => false
  | .vBool b => b
  | .vNum n => n ≠ 0
  | .vStr s => s ≠ ""
  | .vList l => !l.isEmpty
  | .vDict d => !d.isEmpty

/-- View a value as a dict. All merge sites in the code only ever reach this
with an actual dict (a non-dict would raise `AttributeError` in Python). -/
def asDict : Val → Dict
  | .vDict d => d
  | _ => []

/-- The `ActionType` enumeration of `leader.py`. -/
inductive ActionType where
  | REWRITE | PLAN | CHASE | SEARCH_DB | SEARCH_WEB | SUMMARIZE | FINISH
deriving DecidableEq, Repr

/-- The `.value` string of each enum member. -/
def ActionType.value : ActionType → String
  | .REWRITE => "rewrite"
  | .PLAN => "plan"
  | .CHASE => "chase"
  | .SEARCH_DB => "search_db"
  | .SEARCH_WEB => "search_web"
  | .SUMMARIZE => "summarize"
  | .FINISH => "finish"

/-- `ActionType(s)` in Python: look an enum member up by its value,
`none` models the `ValueError` raised for an unknown string. -/
def actionTypeOfString (s : String) : Option ActionType :=
  if s = "rewrite" then some .REWRITE
  else if s = "plan" then some .PLAN
  else if s = "chase" then some .CHASE
  else if s = "search_db" then some .SEARCH_DB
  else if s = "search_web" then some .SEARCH_WEB
  else if s = "summarize" then some .SUMMARIZE
  else if s = "finish" then some .FINISH
  else none

/-- `Action` dataclass: the decision produced by the policy. -/
structure Action where
  type : ActionType
  parameters : Dict := []
  reason : String := ""
deriving Repr

/-- `Observation` dataclass: a skill's outcome. `data` is `none` for Python
`None`; every skill that returns data returns a dict. -/
structure Observation where
  success : Bool
  data : Option Dict
  cost : ℚ := 0
  error_msg : Option String := none
deriving Repr

/-- Truthiness of `obs.data` (`None` and `{}` are falsy). -/
def dataTruthy : Option Dict → Bool
  | none => false
  | some d => !d.isEmpty

/-- One `{step, action, success}` record of `state["history"]`. -/
structure HistoryEntry where
  step : Nat
  action : String
  success : Bool
deriving Repr

/-- `AgentState`: the per-run mutable aggregate of `leader.py`. -/
structure AgentState where
  query : String
  context : Dict
  history : List HistoryEntry
  step_count : Nat
  accumulated_reward : ℚ
deriving Repr

/-- The fresh state built at the top of `LearnableLeaderAgent.process`. -/
def initState (q : String) : AgentState :=
  { query := q, context := [], history := [], step_count := 0,
    accumulated_reward := 0 }

/-- Line 540 of `leader.py`: `if "collected_data" not in state["context"]:
state["context"]["collected_data"] = {}`. -/
def ensureCD (ctx : Dict) : Dict :=
  if hasKey ctx "collected_data" then ctx
  else setKey ctx "collected_data" (.vDict [])

/-- Lines 540-546 of `leader.py`: the context after folding a successful
truthy payload `d` in — when `d` carries `collected_data`, only that field is
merged (`dict.update`) into `context["collected_data"]`; otherwise the whole
payload updates the context. -/
def mergeOutcome (ctx : Dict) (d : Dict) : Dict :=
  let ctx1 := ensureCD ctx
  match findKey d "collected_data" with
  | some v =>
    setKey ctx1 "collected_data"
      (.vDict (dictUpdate (asDict ((findKey ctx1 "collected_data").getD (.vDict [])))
        (asDict v)))
  | none => dictUpdate ctx1 d

/-- `LearnableLeaderAgent._update_state`, lines 537-552 of `leader.py`:
increment `step_count`; if the observation succeeded with truthy data, fold
the payload into the context via `mergeOutcome`; finally append a history
record. `accumulated_reward` is not touched. -/
def updateState (state : AgentState) (action : Action) (obs : Observation) :
    AgentState :=
  let sc := state.step_count + 1
  let ctx :=
    if obs.success && dataTruthy obs.data then
      mergeOutcome state.context (obs.data.getD [])
    else state.context
  { state with
    step_count := sc
    context := ctx
    history := state.history ++ [⟨sc, action.type.value, obs.success⟩] }

/-- `LearnableLeaderAgent._get_available_actions`, lines 519-535. -/
def getAvailableActions (state : AgentState) : List ActionType :=
  let ctx := state.context
  if !hasKey ctx "rewritten_query" then [.REWRITE]
  else if !hasKey ctx "integrity_ok" && !hasKey ctx "suggested_question" then
    [.CHASE]
  else if hasKey ctx "suggested_question" then [.FINISH]
  else if !hasKey ctx "plan" then [.PLAN]
  else
    [.SEARCH_DB, .SEARCH_WEB] ++
      (if hasKey ctx "collected_data" then [.SUMMARIZE] else [])

/-- `LLMPolicy._parse_response`, lines 432-444. The LLM response string is
embedded as its parse: `none` when `json.loads` fails, otherwise the
`action` string, `parameters` dict and `reason` string extracted from the
JSON object (an unknown action string raises `ValueError` inside the `try`,
caught by the bare `except`). -/
def parseResponse (parsed : Option (String × Dict × String))
    (available : List ActionType) : Action :=
  match parsed with
  | none => { type := .FINISH, reason := "解析失败" }
  | some (a, params, reason) =>
    match actionTypeOfString a with
    | none => { type := .FINISH, reason := "解析失败" }
    | some t =>
      if t ∈ available then { type := t, parameters := params, reason := reason }
      else { type := .FINISH, reason := "模型选择了非法动作" }

/-- View a value as a list (`[]` for non-lists; all sites reaching this in the
code hold actual lists). -/
def asList : Val → List Val
  | .vList l => l
  | _ => []

/-- `ChaseResult` dataclass of `chaser.py`. `question`/`options` hold whatever
value the skill-executor's JSON carried (`vNone` models Python `None`). -/
structure ChaseResult where
  can_proceed : Bool
  action : String
  question : Val := .vNone
  options : Val := .vList []
deriving Repr

/-- `ChaserAgent.check_and_chase`, lines 20-53 of `chaser.py`, as a function of
the parsed JSON the skill-template executor returned for
`chaser_integrity_check.md`. -/
def check_and_chase (result : Dict) : ChaseResult :=
  if valTruthy ((findKey result "is_sufficient").getD .vNone) then
    { can_proceed := true, action := "proceed" }
  else
    { can_proceed := false, action := "chase",
      question := (findKey result "suggested_question").getD .vNone,
      options := (findKey result "suggested_options").getD (.vList []) }

/-- `ChaseSkill.execute`, lines 112-152 of `leader.py`: the underlying call is
embedded as `Except` (exception message, or the executor's parsed JSON). -/
def chaseExecute (callResult : Except String Dict) : Observation :=
  match callResult with
  | .error e => { success := false, data := none, error_msg := some e }
  | .ok r =>
    let res := check_and_chase r
    if res.can_proceed then
      { success := true, data := some [("integrity_ok", .vBool true)],
        cost := 1/100 }
    else
      { success := true,
        data := some [("integrity_ok", .vBool false),
                      ("suggested_question", res.question),
                      ("suggested_options", res.options),
                      ("is_wait_user", .vBool true)],
        cost := 1/100 }

/-- The fate of one plan item inside `InformationCollectionAgent.execute`
(lines 69-113 of `collector.py`), abstracting the external RAG/evaluator/web
calls: the RAG path accepted the item, the web fallback returned data, or
both paths came up empty. -/
inductive ItemFate where
  | ragHit (data : String)
  | webHit (data : String)
  | failed
deriving Repr

/-- The `results` dict built by `InformationCollectionAgent.execute`: every
item — `desc` paired with its fate — receives exactly one entry, a `Failed`
marker included. -/
def collectorResults (items : List (String × ItemFate)) : Dict :=
  items.foldl
    (fun results it =>
      match it.2 with
      | .ragHit d =>
        setKey results it.1 (.vDict [("data", .vStr d), ("source", .vStr "RAG")])
      | .webHit d =>
        setKey results it.1 (.vDict [("data", .vStr d), ("source", .vStr "Web")])
      | .failed =>
        setKey results it.1
          (.vDict [("data", .vStr "未找到"), ("source", .vStr "Failed")]))
    []

/-- `InformationCollectionAgent.execute` returns `{"validated_data": results}`. -/
def collectorExecute (items : List (String × ItemFate)) : Dict :=
  [("validated_data", .vDict (collectorResults items))]

/-- Number of successfully collected entries of a `validated_data` dict:
entries not marked `source: Failed`. -/
def countSuccessful (vd : Dict) : Nat :=
  (vd.filter fun kv =>
    match findKey (asDict kv.2) "source" with
    | some (.vStr s) => s ≠ "Failed"
    | _ => true).length

/-- The `force_web` rewrite of `SearchSkill.execute` (lines 239-246 of
`leader.py`): a fresh plan whose `required_info` holds a shallow copy of each
item with its `source` set to `web_only`. -/
def forceWebPlan (plan : Dict) : Dict :=
  [("required_info",
    .vList ((asList ((findKey plan "required_info").getD .vNone)).map
      fun it => .vDict (setKey (asDict it) "source" (.vStr "web_only"))))]

/-- The plan the search skill hands to the collector: rewritten when the
action's parameters carry a truthy `force_web`, the original otherwise. -/
def searchEffectivePlan (params : Dict) (plan : Dict) : Dict :=
  if valTruthy ((findKey params "force_web").getD .vNone) then forceWebPlan plan
  else plan

/-- The `_source` bucket `SearchSkill.execute` assigns an entry of
`validated_data` to (lines 267-276): dict values marked `_source: web` go to
the web bucket, everything else defaults to the RAG bucket. -/
def classifySource : Val → String
  | .vDict d =>
    match findKey d "_source" with
    | some (.vStr s) => if s = "rag" then "rag" else if s = "web" then "web" else "rag"
    | _ => "rag"
  | _ => "rag"

/-- `SearchSkill.execute`, lines 230-318 of `leader.py`, as a function of the
state's context and the collector call embedded as `Except`. The plan guard
precedes the call; on return the skill wraps `validated_data` with RAG
bookkeeping and reports `success = len(validated_data) > 0`. -/
def searchExecute (ctx : Dict) (callResult : Except String Dict) : Observation :=
  let plan := (findKey ctx "plan").getD (.vDict [])
  if !valTruthy plan || !hasKey (asDict plan) "required_info" then
    { success := false, data := none, error_msg := some "没有找到有效的计划 (Plan)" }
  else
    match callResult with
    | .error e => { success := false, data := none, error_msg := some e }
    | .ok res =>
      let vd := asDict ((findKey res "validated_data").getD (.vDict []))
      let ragResults := vd.filter fun kv => classifySource kv.2 = "rag"
      let webResults := vd.filter fun kv => classifySource kv.2 = "web"
      let rawCtxs := (findKey res "rag_contexts").getD (.vList [])
      let enhanced : Dict :=
        [("collected_data", .vDict vd),
         ("rag_details",
          .vDict [("rag_only_results", .vDict ragResults),
                  ("web_only_results", .vDict webResults),
                  ("raw_contexts", rawCtxs),
                  ("sources_breakdown",
                   .vDict [("rag_count", .vNum ragResults.length),
                           ("web_count", .vNum webResults.length),
                           ("total", .vNum vd.length)])])]
      { success := decide (0 < vd.length), data := some enhanced, cost := 5/100 }

/-- The result dict built at the bottom of `LearnableLeaderAgent.process`
(lines 500-517; the trajectory list is omitted from the embedding). -/
structure RunResult where
  status : String
  final_report : Val
  total_reward : ℚ
  clarification_question : Option Val := none
  clarification_options : Option Val := none
deriving Repr

/-- Lines 500-517 of `leader.py`: default `success` result, switched to
`need_input` carrying the question and options when `suggested_question` is
present in context. -/
def buildResult (state : AgentState) : RunResult :=
  let base : RunResult :=
    { status := "success",
      final_report := (findKey state.context "report").getD (.vStr "未生成"),
      total_reward := state.accumulated_reward }
  if hasKey state.context "suggested_question" then
    { base with
      status := "need_input",
      clarification_question := findKey state.context "suggested_question",
      clarification_options :=
        some ((findKey state.context "suggested_options").getD (.vList [])) }
  else base

/-- What one iteration of the `while` loop in `process` does: exit (break) or
continue with an updated state. -/
inductive IterOutcome where
  | exited (s : AgentState)
  | continued (s : AgentState)
deriving Repr

/-- One iteration of the main loop (lines 474-498 of `leader.py`), given the
parse of the policy LLM's response and the observation each skill would
produce: compute legal actions, parse the decision, break on FINISH before
executing anything, otherwise execute the skill, fold the outcome in, and
break early on a truthy `is_complete`. -/
def loopIter (s : AgentState) (parsed : Option (String × Dict × String))
    (skillObs : ActionType → Observation) : IterOutcome :=
  let available := getAvailableActions s
  let action := parseResponse parsed available
  if action.type = .FINISH then .exited s
  else
    let obs := skillObs action.type
    let s' := updateState s action obs
    if obs.success && dataTruthy obs.data &&
        valTruthy ((findKey (obs.data.getD []) "is_complete").getD .vNone) then
      .exited s'
    else .continued s'

/-- The observations each skill adapter can produce in a given state, with the
external calls (LLM, skill-template executor, RAG, web) existentially
abstracted. This is the `Outcome` side of the skill contract of `leader.py`. -/
inductive SkillObs : ActionType → AgentState → Observation → Prop where
  | rewriteOk (s : AgentState) (r e i : Val) :
      SkillObs .REWRITE s
        { success := true,
          data := some [("rewritten_query", r), ("entities", e), ("intent", i)],
          cost := 1/100 }
  | rewriteErr (s : AgentState) (msg : String) :
      SkillObs .REWRITE s { success := false, data := none, error_msg := some msg }
  | chase (s : AgentState) (cr : Except String Dict) :
      SkillObs .CHASE s (chaseExecute cr)
  | planOk (s : AgentState) (p : Val) :
      SkillObs .PLAN s
        { success := true, data := some [("plan", p)], cost := 2/100 }
  | planErr (s : AgentState) (msg : String) :
      SkillObs .PLAN s { success := false, data := none, error_msg := some msg }
  | search (t : ActionType) (s : AgentState) (cr : Except String Dict)
      (ht : t = .SEARCH_DB ∨ t = .SEARCH_WEB) :
      SkillObs t s (searchExecute s.context cr)
  | summarizeOk (s : AgentState) (rep : Val) :
      SkillObs .SUMMARIZE s
        { success := true,
          data := some [("report", rep), ("is_complete", .vBool true)],
          cost := 2/100 }
  | summarizeMissing (s : AgentState) (m : Val) (msg : String) :
      SkillObs .SUMMARIZE s
        { success := false, data := some [("missing", m)], cost := 1/100,
          error_msg := some msg }
  | summarizeErr (s : AgentState) (msg : String) :
      SkillObs .SUMMARIZE s { success := false, data := none, error_msg := some msg }

/-- One executed (non-FINISH) transition of the main loop: the policy's action
survives `_parse_response` only if legal, a FINISH breaks the loop before any
skill runs, so every state change goes through `_update_state` on a legal
action's observation. -/
inductive LoopStep : AgentState → AgentState → Prop where
  | mk (s : AgentState) (a : Action) (obs : Observation)
      (hmem : a.type ∈ getAvailableActions s)
      (hnf : a.type ≠ .FINISH)
      (hobs : SkillObs a.type s obs) :
      LoopStep s (updateState s a obs)

/-- States a run on query `q` can reach. -/
inductive Reachable (q : String) : AgentState → Prop where
  | init : Reachable q (initState q)
  | step {s s' : AgentState} : Reachable q s → LoopStep s s' → Reachable q s'

/-! ### Dictionary lemmas -/

theorem findKey_setKey_self (d : Dict) (k : String) (v : Val) :
    findKey (setKey d k v) k = some v := by
  induction d with
  | nil => simp [setKey, findKey]
  | cons kv rest ih =>
    obtain ⟨k', v'⟩ := kv
    by_cases h : k' = k <;> simp [setKey, findKey, h, ih]

theorem findKey_setKey_ne (d : Dict) (k k' : String) (v : Val) (h : k' ≠ k) :
    findKey (setKey d k v) k' = findKey d k' := by
  have h' : k ≠ k' := Ne.symm h
  induction d with
  | nil => simp [setKey, findKey, h']
  | cons kv rest ih =>
    obtain ⟨k0, v0⟩ := kv
    by_cases h0 : k0 = k
    · subst h0
      simp [setKey, findKey, h']
    · by_cases h1 : k0 = k' <;> simp [setKey, findKey, h0, h1, h, ih]

theorem hasKey_iff_mem_keys (d : Dict) (k : String) :
    hasKey d k = true ↔ k ∈ d.map Prod.fst := by
  unfold hasKey
  induction d with
  | nil => simp [findKey]
  | cons kv rest ih =>
    obtain ⟨k0, v0⟩ := kv
    by_cases h : k0 = k
    · subst h
      simp [findKey]
    · have h' : k ≠ k0 := fun hh => h hh.symm
      simp [findKey, h, h', ih]

theorem hasKey_setKey (d : Dict) (k v k') :
    hasKey (setKey d k v) k' = true ↔ (k' = k ∨ hasKey d k' = true) := by
  by_cases h : k' = k
  · subst h
    simp [hasKey, findKey_setKey_self]
  · simp [hasKey, findKey_setKey_ne d k k' v h, h]

theorem hasKey_cons (k0 : String) (v0 : Val) (rest : Dict) (k : String) :
    hasKey ((k0, v0) :: rest) k = true ↔ (k0 = k ∨ hasKey rest k = true) := by
  by_cases h : k0 = k <;> simp [hasKey, findKey, h]

theorem findKey_dictUpdate_not_hasKey (d o : Dict) (k : String)
    (h : hasKey o k = false) :
    findKey (dictUpdate d o) k = findKey d k := by
  induction o generalizing d with
  | nil => simp [dictUpdate]
  | cons kv rest ih =>
    obtain ⟨k0, v0⟩ := kv
    have h0 : ¬ (k0 = k ∨ hasKey rest k = true) := by
      intro hc
      rw [← hasKey_cons k0 v0 rest k] at hc
      simp [hc] at h
    push_neg at h0
    have := ih (setKey d k0 v0) (by simpa using h0.2)
    calc findKey (dictUpdate d ((k0, v0) :: rest)) k
        = findKey (dictUpdate (setKey d k0 v0) rest) k := rfl
      _ = findKey (setKey d k0 v0) k := this
      _ = findKey d k := findKey_setKey_ne d k0 k v0 (fun hh => h0.1 hh.symm)

theorem hasKey_dictUpdate (d o : Dict) (k : String) :
    hasKey (dictUpdate d o) k = true ↔
      (hasKey d k = true ∨ hasKey o k = true) := by
  induction o generalizing d with
  | nil => simp [dictUpdate, hasKey, findKey]
  | cons kv rest ih =>
    obtain ⟨k0, v0⟩ := kv
    have : dictUpdate d ((k0, v0) :: rest) = dictUpdate (setKey d k0 v0) rest := rfl
    rw [this, ih, hasKey_setKey, hasKey_cons]
    tauto

theorem findKey_dictUpdate_nodup_mem (d o : Dict) (k : String)
    (hnd : (o.map Prod.fst).Nodup) (hk : hasKey o k = true) :
    findKey (dictUpdate d o) k = findKey o k := by
  induction o generalizing d with
  | nil => simp [hasKey, findKey] at hk
  | cons kv rest ih =>
    obtain ⟨k0, v0⟩ := kv
    have hstep : dictUpdate d ((k0, v0) :: rest) = dictUpdate (setKey d k0 v0) rest := rfl
    simp only [List.map_cons, List.nodup_cons] at hnd
    by_cases h0 : k0 = k
    · subst h0
      have hrest : hasKey rest k0 = false := by
        have : ¬ hasKey rest k0 = true :=
          fun hb => hnd.1 ((hasKey_iff_mem_keys rest k0).1 hb)
        simpa using this
      rw [hstep, findKey_dictUpdate_not_hasKey _ _ _ hrest,
        findKey_setKey_self]
      simp [findKey]
    · have hk' : hasKey rest k = true := by
        rcases (hasKey_cons k0 v0 rest k).1 hk with h | h
        · exact absurd h h0
        · exact h
      rw [hstep, ih _ hnd.2 hk']
      simp [findKey, h0]

theorem hasKey_eq_false_iff (d : Dict) (k : String) :
    hasKey d k = false ↔ findKey d k = none := by
  unfold hasKey
  rcases h : findKey d k <;> simp [h]

/-! ### Merge lemmas -/

theorem findKey_ensureCD_ne (ctx : Dict) (k : String)
    (hk : k ≠ "collected_data") :
    findKey (ensureCD ctx) k = findKey ctx k := by
  unfold ensureCD
  by_cases h : hasKey ctx "collected_data" = true
  · simp [h]
  · simp only [Bool.not_eq_true] at h
    simp [h, findKey_setKey_ne _ _ _ _ hk]

theorem hasKey_ensureCD (ctx : Dict) (k : String) :
    hasKey (ensureCD ctx) k = true ↔
      (hasKey ctx k = true ∨ k = "collected_data") := by
  unfold ensureCD
  by_cases h : hasKey ctx "collected_data" = true
  · by_cases hk : k = "collected_data" <;> simp [h, hk]
  · simp only [Bool.not_eq_true] at h
    simp [h, hasKey_setKey]
    tauto

theorem findKey_ensureCD_cd (ctx : Dict) :
    (findKey (ensureCD ctx) "collected_data").getD (.vDict []) =
      (findKey ctx "collected_data").getD (.vDict []) := by
  unfold ensureCD
  by_cases h : hasKey ctx "collected_data" = true
  · simp [h]
  · simp only [Bool.not_eq_true] at h
    rw [if_neg (by simp [h]), findKey_setKey_self,
      (hasKey_eq_false_iff ctx "collected_data").1 h]
    rfl

theorem mergeOutcome_hasKey_mono (ctx d : Dict) (k : String)
    (h : hasKey ctx k = true) :
    hasKey (mergeOutcome ctx d) k = true := by
  unfold mergeOutcome
  have h1 : hasKey (ensureCD ctx) k = true := (hasKey_ensureCD ctx k).2 (Or.inl h)
  rcases hcd : findKey d "collected_data" with _ | v
  · simp only [hcd]
    exact (hasKey_dictUpdate _ _ _).2 (Or.inl h1)
  · simp only [hcd]
    exact (hasKey_setKey _ _ _ _).2 (Or.inr h1)

theorem mergeOutcome_hasKey_cases (ctx d : Dict) (k : String)
    (h : hasKey (mergeOutcome ctx d) k = true) :
    hasKey ctx k = true ∨ k = "collected_data" ∨ hasKey d k = true := by
  unfold mergeOutcome at h
  rcases hcd : findKey d "collected_data" with _ | v <;> simp only [hcd] at h
  · rcases (hasKey_dictUpdate _ _ _).1 h with h1 | h1
    · rcases (hasKey_ensureCD ctx k).1 h1 with h2 | h2
      · exact Or.inl h2
      · exact Or.inr (Or.inl h2)
    · exact Or.inr (Or.inr h1)
  · rcases (hasKey_setKey _ _ _ _).1 h with h1 | h1
    · exact Or.inr (Or.inl h1)
    · rcases (hasKey_ensureCD ctx k).1 h1 with h2 | h2
      · exact Or.inl h2
      · exact Or.inr (Or.inl h2)

theorem mergeOutcome_hasKey_cd (ctx d : Dict) :
    hasKey (mergeOutcome ctx d) "collected_data" = true := by
  unfold mergeOutcome
  rcases hcd : findKey d "collected_data" with _ | v <;> simp only [hcd]
  · exact (hasKey_dictUpdate _ _ _).2
      (Or.inl ((hasKey_ensureCD ctx _).2 (Or.inr rfl)))
  · unfold hasKey
    rw [findKey_setKey_self]
    rfl

theorem mergeOutcome_findKey_cdPayload_other (ctx d : Dict) (v : Val)
    (k : String) (hcd : findKey d "collected_data" = some v)
    (hk : k ≠ "collected_data") :
    findKey (mergeOutcome ctx d) k = findKey ctx k := by
  unfold mergeOutcome
  simp only [hcd]
  rw [findKey_setKey_ne _ _ _ _ hk, findKey_ensureCD_ne ctx k hk]

theorem mergeOutcome_findKey_cdPayload (ctx d : Dict) (v : Val)
    (hcd : findKey d "collected_data" = some v) :
    findKey (mergeOutcome ctx d) "collected_data" =
      some (.vDict (dictUpdate
        (asDict ((findKey ctx "collected_data").getD (.vDict []))) (asDict v))) := by
  unfold mergeOutcome
  simp only [hcd]
  rw [findKey_setKey_self, findKey_ensureCD_cd]

theorem mergeOutcome_findKey_noCD_payload (ctx d : Dict) (k : String)
    (hcd : findKey d "collected_data" = none)
    (hnd : (d.map Prod.fst).Nodup) (hk : hasKey d k = true) :
    findKey (mergeOutcome ctx d) k = findKey d k := by
  unfold mergeOutcome
  simp only [hcd]
  exact findKey_dictUpdate_nodup_mem _ _ _ hnd hk

theorem mergeOutcome_findKey_noCD_other (ctx d : Dict) (k : String)
    (hcd : findKey d "collected_data" = none)
    (hk : hasKey d k = false) (hkcd : k ≠ "collected_data") :
    findKey (mergeOutcome ctx d) k = findKey ctx k := by
  unfold mergeOutcome
  simp only [hcd]
  rw [findKey_dictUpdate_not_hasKey _ _ _ hk, findKey_ensureCD_ne ctx k hkcd]

/-! ### `_update_state` basics -/

theorem updateState_step_count (s : AgentState) (a : Action) (obs : Observation) :
    (updateState s a obs).step_count = s.step_count + 1 := rfl

theorem updateState_reward (s : AgentState) (a : Action) (obs : Observation) :
    (updateState s a obs).accumulated_reward = s.accumulated_reward := rfl

theorem updateState_history (s : AgentState) (a : Action) (obs : Observation) :
    (updateState s a obs).history =
      s.history ++ [⟨s.step_count + 1, a.type.value, obs.success⟩] := rfl

theorem updateState_context_merge (s : AgentState) (a : Action)
    (obs : Observation) (h : (obs.success && dataTruthy obs.data) = true) :
    (updateState s a obs).context = mergeOutcome s.context (obs.data.getD []) := by
  unfold updateState
  simp [h]

theorem updateState_context_frozen (s : AgentState) (a : Action)
    (obs : Observation) (h : (obs.success && dataTruthy obs.data) = false) :
    (updateState s a obs).context = s.context := by
  unfold updateState
  simp [h]

/-! ### Claim theorems -/

/-- C2: the legality gate is a pure function of which keys are present in
`context` (states with identical key sets yield identical legal-action sets),
and follows exactly the documented ordering: no `rewritten_query` → only
REWRITE; else neither `integrity_ok` nor `suggested_question` → only CHASE;
else `suggested_question` present → only FINISH; else no `plan` → only PLAN;
else SEARCH_DB and SEARCH_WEB, plus SUMMARIZE once `collected_data` is
present. -/
theorem legality_gate_pure_and_ordered :
    (∀ s1 s2 : AgentState,
      (∀ k, hasKey s1.context k = hasKey s2.context k) →
      getAvailableActions s1 = getAvailableActions s2) ∧
    (∀ s : AgentState,
      (hasKey s.context "rewritten_query" = false →
        getAvailableActions s = [.REWRITE]) ∧
      (hasKey s.context "rewritten_query" = true →
        hasKey s.context "integrity_ok" = false →
        hasKey s.context "suggested_question" = false →
        getAvailableActions s = [.CHASE]) ∧
      (hasKey s.context "rewritten_query" = true →
        hasKey s.context "suggested_question" = true →
        getAvailableActions s = [.FINISH]) ∧
      (hasKey s.context "rewritten_query" = true →
        hasKey s.context "integrity_ok" = true →
        hasKey s.context "suggested_question" = false →
        hasKey s.context "plan" = false →
        getAvailableActions s = [.PLAN]) ∧
      (hasKey s.context "rewritten_query" = true →
        hasKey s.context "integrity_ok" = true →
        hasKey s.context "suggested_question" = false →
        hasKey s.context "plan" = true →
        getAvailableActions s =
          [.SEARCH_DB, .SEARCH_WEB] ++
            (if hasKey s.context "collected_data" = true then [.SUMMARIZE]
             else []))) := by
  constructor
  · intro s1 s2 h
    simp only [getAvailableActions]
    rw [h "rewritten_query", h "integrity_ok", h "suggested_question",
      h "plan", h "collected_data"]
  · intro s
    refine ⟨?_, ?_, ?_, ?_, ?_⟩
    · intro h1
      simp [getAvailableActions, h1]
    · intro h1 h2 h3
      simp [getAvailableActions, h1, h2, h3]
    · intro h1 h2
      simp [getAvailableActions, h1, h2]
    · intro h1 h2 h3 h4
      simp [getAvailableActions, h1, h2, h3, h4]
    · intro h1 h2 h3 h4
      simp [getAvailableActions, h1, h2, h3, h4]

/-- Witness for C2: two contexts with the same key but different values get
the same legal actions, and the fresh empty context only allows REWRITE. -/
theorem legality_gate_pure_and_ordered_witness :
    getAvailableActions ⟨"q", [("plan", .vNum 1)], [], 0, 0⟩ =
      getAvailableActions ⟨"q", [("plan", .vNum 2)], [], 0, 0⟩ ∧
    getAvailableActions (initState "q") = [.REWRITE] :=
  ⟨legality_gate_pure_and_ordered.1 _ _
    (fun k => by by_cases h : "plan" = k <;> simp [hasKey, findKey, h]),
   (legality_gate_pure_and_ordered.2 (initState "q")).1 rfl⟩

/-- C7: `context` keys are monotonically non-decreasing: a key present before
`_update_state` is present after it, for any outcome, and hence also across
every executed loop transition. -/
theorem context_keys_monotone :
    (∀ (s : AgentState) (a : Action) (obs : Observation) (k : String),
      hasKey s.context k = true →
      hasKey (updateState s a obs).context k = true) ∧
    (∀ (s s' : AgentState) (k : String), LoopStep s s' →
      hasKey s.context k = true → hasKey s'.context k = true) := by
  have base : ∀ (s : AgentState) (a : Action) (obs : Observation) (k : String),
      hasKey s.context k = true →
      hasKey (updateState s a obs).context k = true := by
    intro s a obs k h
    cases hb : (obs.success && dataTruthy obs.data) with
    | false => rw [updateState_context_frozen s a obs hb]; exact h
    | true =>
      rw [updateState_context_merge s a obs hb]
      exact mergeOutcome_hasKey_mono _ _ _ h
  refine ⟨base, ?_⟩
  intro s s' k hstep h
  cases hstep with
  | mk a obs hmem hnf hobs => exact base s a obs k h

/-- Witness for C7: a context holding `rewritten_query` still holds it after a
failed outcome and after a successful CHASE outcome. -/
theorem context_keys_monotone_witness :
    hasKey (updateState ⟨"q", [("rewritten_query", .vStr "r")], [], 1, 0⟩
      ⟨.CHASE, [], ""⟩
      (chaseExecute (.ok [("is_sufficient", .vBool true)]))).context
      "rewritten_query" = true :=
  context_keys_monotone.1 ⟨"q", [("rewritten_query", .vStr "r")], [], 1, 0⟩
    ⟨.CHASE, [], ""⟩ (chaseExecute (.ok [("is_sufficient", .vBool true)])) _ rfl

/-- C3: folding the first successful non-empty payload into a fresh run's
state creates `context["collected_data"]` bound to an empty mapping even when
the payload carries no `collected_data` field, and SUMMARIZE is legal at any
state whose context holds `rewritten_query`, `integrity_ok`, `plan` and
`collected_data` without `suggested_question` — i.e. as soon as `plan`
arrives, before any SEARCH has collected anything. -/
theorem collected_data_created_before_search :
    (∀ (q : String) (a : Action) (obs : Observation) (d : Dict),
      obs.success = true → obs.data = some d → d ≠ [] →
      findKey d "collected_data" = none →
      findKey (updateState (initState q) a obs).context "collected_data" =
        some (.vDict [])) ∧
    (∀ s : AgentState,
      hasKey s.context "rewritten_query" = true →
      hasKey s.context "integrity_ok" = true →
      hasKey s.context "suggested_question" = false →
      hasKey s.context "plan" = true →
      hasKey s.context "collected_data" = true →
      ActionType.SUMMARIZE ∈ getAvailableActions s) := by
  constructor
  · intro q a obs d hs hd hne hcd
    have htruthy : (obs.success && dataTruthy obs.data) = true := by
      simp [hs, hd, dataTruthy, hne]
    rw [updateState_context_merge _ _ _ htruthy]
    have hd' : obs.data.getD [] = d := by simp [hd]
    rw [hd']
    have hk : hasKey d "collected_data" = false :=
      (hasKey_eq_false_iff d "collected_data").2 hcd
    unfold mergeOutcome
    simp only [hcd]
    rw [findKey_dictUpdate_not_hasKey _ _ _ hk]
    unfold ensureCD
    rw [if_neg (by simp [initState, hasKey, findKey])]
    simp [initState, setKey, findKey]
  · intro s h1 h2 h3 h4 h5
    simp [getAvailableActions, h1, h2, h3, h4, h5]

/-- Witness for C3: a successful REWRITE payload folded into the fresh state
creates the empty `collected_data`, and SUMMARIZE is legal right after PLAN.
-/
theorem collected_data_created_before_search_witness :
    findKey (updateState (initState "Q1")
      ⟨.REWRITE, [], ""⟩
      { success := true,
        data := some [("rewritten_query", .vStr "Q1x"), ("entities", .vList []),
          ("intent", .vDict [])],
        cost := 1/100 }).context "collected_data" = some (.vDict []) ∧
    ActionType.SUMMARIZE ∈ getAvailableActions
      ⟨"Q1", [("collected_data", .vDict []), ("rewritten_query", .vStr "r"),
        ("integrity_ok", .vBool true), ("plan", .vDict [])], [], 3, 0⟩ :=
  ⟨collected_data_created_before_search.1 "Q1" ⟨.REWRITE, [], ""⟩ _ _ rfl rfl
      (by simp) rfl,
   collected_data_created_before_search.2 _ rfl rfl rfl rfl rfl⟩

/-- C1 counterexample: a successful SEARCH-style payload that carries both
`collected_data` and another field (`rag_details`, exactly what
`SearchSkill.execute` produces) — the claim says the other field overwrites
the same-named context key, but `_update_state` drops every other payload
field whenever `collected_data` is present: `rag_details` never enters the
context. -/
theorem state_merge_rag_details_dropped :
    (let obs : Observation :=
      { success := true,
        data := some [("collected_data", .vDict [("item", .vStr "d")]),
          ("rag_details", .vStr "rd")],
        cost := 5/100 }
    findKey (obs.data.getD []) "rag_details" = some (.vStr "rd") ∧
    obs.success = true ∧
    findKey (updateState (initState "q") ⟨.SEARCH_DB, [], ""⟩ obs).context
      "rag_details" = none) := by
  refine ⟨rfl, rfl, ?_⟩
  rfl

/-- C1 (amended): on each Outcome `stepCount` is incremented; if it succeeded
with a non-empty payload then `collected_data` is present afterwards
(created only if absent), and: when the payload carries `collected_data`,
that field alone is merged key-by-key into `context.collected_data` while
every other payload field is discarded and every other context key is left
unchanged; only when the payload carries no `collected_data` does each
payload field overwrite the same-named context key directly. -/
theorem state_merge_rule (s : AgentState) (a : Action) (obs : Observation)
    (d : Dict) (hs : obs.success = true) (hd : obs.data = some d)
    (hne : d ≠ []) :
    (updateState s a obs).step_count = s.step_count + 1 ∧
    hasKey (updateState s a obs).context "collected_data" = true ∧
    (∀ v, findKey d "collected_data" = some v →
      findKey (updateState s a obs).context "collected_data" =
        some (.vDict (dictUpdate
          (asDict ((findKey s.context "collected_data").getD (.vDict [])))
          (asDict v))) ∧
      ∀ k, k ≠ "collected_data" →
        findKey (updateState s a obs).context k = findKey s.context k) ∧
    (findKey d "collected_data" = none → (d.map Prod.fst).Nodup →
      ∀ k, hasKey d k = true →
        findKey (updateState s a obs).context k = findKey d k) := by
  have htruthy : (obs.success && dataTruthy obs.data) = true := by
    simp [hs, hd, dataTruthy, hne]
  have hctx : (updateState s a obs).context = mergeOutcome s.context d := by
    rw [updateState_context_merge _ _ _ htruthy]
    simp [hd]
  refine ⟨updateState_step_count s a obs, ?_, ?_, ?_⟩
  · rw [hctx]
    exact mergeOutcome_hasKey_cd s.context d
  · intro v hv
    rw [hctx]
    exact ⟨mergeOutcome_findKey_cdPayload s.context d v hv,
      fun k hk => mergeOutcome_findKey_cdPayload_other s.context d v k hv hk⟩
  · intro hcd hnd k hk
    rw [hctx]
    exact mergeOutcome_findKey_noCD_payload s.context d k hcd hnd hk

/-- Witness for C1 (amended): both merge branches evaluated concretely — a
SEARCH payload merges `collected_data` key-by-key leaving `plan` untouched,
and a REWRITE payload overwrites `rewritten_query` directly. -/
theorem state_merge_rule_witness :
    (updateState ⟨"q", [("collected_data", .vDict [("a", .vStr "1")]),
        ("plan", .vDict [])], [], 2, 0⟩ ⟨.SEARCH_DB, [], ""⟩
      { success := true,
        data := some [("collected_data", .vDict [("b", .vStr "2")]),
          ("rag_details", .vStr "rd")],
        cost := 5/100 }).step_count = 3 ∧
    findKey (updateState ⟨"q", [("collected_data", .vDict [("a", .vStr "1")]),
        ("plan", .vDict [])], [], 2, 0⟩ ⟨.SEARCH_DB, [], ""⟩
      { success := true,
        data := some [("collected_data", .vDict [("b", .vStr "2")]),
          ("rag_details", .vStr "rd")],
        cost := 5/100 }).context "collected_data" =
      some (.vDict [("a", .vStr "1"), ("b", .vStr "2")]) ∧
    findKey (updateState ⟨"q", [("collected_data", .vDict [("a", .vStr "1")]),
        ("plan", .vDict [])], [], 2, 0⟩ ⟨.SEARCH_DB, [], ""⟩
      { success := true,
        data := some [("collected_data", .vDict [("b", .vStr "2")]),
          ("rag_details", .vStr "rd")],
        cost := 5/100 }).context "plan" = some (.vDict []) ∧
    findKey (updateState ⟨"q", [("rewritten_query", .vStr "old")], [], 1, 0⟩
      ⟨.REWRITE, [], ""⟩
      { success := true,
        data := some [("rewritten_query", .vStr "new")],
        cost := 1/100 }).context "rewritten_query" = some (.vStr "new") := by
  have h1 := state_merge_rule ⟨"q", [("collected_data", .vDict [("a", .vStr "1")]),
      ("plan", .vDict [])], [], 2, 0⟩ ⟨.SEARCH_DB, [], ""⟩
    { success := true,
      data := some [("collected_data", .vDict [("b", .vStr "2")]),
        ("rag_details", .vStr "rd")],
      cost := 5/100 } _ rfl rfl (by simp)
  have h2 := state_merge_rule ⟨"q", [("rewritten_query", .vStr "old")], [], 1, 0⟩
    ⟨.REWRITE, [], ""⟩
    { success := true,
      data := some [("rewritten_query", .vStr "new")],
      cost := 1/100 } _ rfl rfl (by simp)
  refine ⟨h1.1, ?_, ?_, ?_⟩
  · have := (h1.2.2.1 (.vDict [("b", .vStr "2")]) rfl).1
    rw [this]
    rfl
  · exact (h1.2.2.1 (.vDict [("b", .vStr "2")]) rfl).2 "plan" (by decide)
  · have := h2.2.2.2 rfl (by simp) "rewritten_query" rfl
    rw [this]
    rfl

/-- C4: when the policy's response is unparsable JSON, names an unknown
action, or names an action outside the legal set, `_parse_response` yields a
FINISH action whose rationale notes the fault, and the loop iteration exits
immediately with the state untouched — no history entry is appended and
`step_count` is not incremented. -/
theorem illegal_policy_choice_finishes (s : AgentState)
    (parsed : Option (String × Dict × String))
    (skillObs : ActionType → Observation)
    (h : parsed = none ∨
      (∃ a p r, parsed = some (a, p, r) ∧ actionTypeOfString a = none) ∨
      (∃ a p r t, parsed = some (a, p, r) ∧ actionTypeOfString a = some t ∧
        t ∉ getAvailableActions s)) :
    (parseResponse parsed (getAvailableActions s)).type = .FINISH ∧
    ((parseResponse parsed (getAvailableActions s)).reason = "解析失败" ∨
     (parseResponse parsed (getAvailableActions s)).reason = "模型选择了非法动作") ∧
    loopIter s parsed skillObs = .exited s := by
  have hfin : (parseResponse parsed (getAvailableActions s)).type = .FINISH ∧
      ((parseResponse parsed (getAvailableActions s)).reason = "解析失败" ∨
       (parseResponse parsed (getAvailableActions s)).reason = "模型选择了非法动作") := by
    rcases h with h | ⟨a, p, r, hp, ha⟩ | ⟨a, p, r, t, hp, ha, hmem⟩
    · subst h
      exact ⟨rfl, Or.inl rfl⟩
    · subst hp
      simp [parseResponse, ha]
    · subst hp
      simp [parseResponse, ha, hmem]
  refine ⟨hfin.1, hfin.2, ?_⟩
  unfold loopIter
  simp [hfin.1]

/-- Witness for C4: in the fresh state (only REWRITE legal) a well-formed
response naming SUMMARIZE is coerced to FINISH and the iteration exits with
the state unchanged. -/
theorem illegal_policy_choice_finishes_witness :
    (parseResponse (some ("summarize", [], "go"))
      (getAvailableActions (initState "q"))).type = .FINISH ∧
    loopIter (initState "q") (some ("summarize", [], "go"))
      (fun _ => { success := false, data := none }) = .exited (initState "q") := by
  have h := illegal_policy_choice_finishes (initState "q")
    (some ("summarize", [], "go")) (fun _ => { success := false, data := none })
    (Or.inr (Or.inr ⟨"summarize", [], "go", .SUMMARIZE, rfl, rfl, by decide⟩))
  exact ⟨h.1, h.2.2⟩

/-- C8: `ChaseSkill.execute` reports `success = true` in both sub-cases when
the underlying `check_and_chase` returns — payload `{integrity_ok: true}`
when the check judged the information sufficient, and payload
`{integrity_ok: false, suggested_question, suggested_options,
is_wait_user: true}` when insufficient — and reports `success = false` only
for the exception branch of the underlying call. -/
theorem chase_outcome_policy (cr : Except String Dict) :
    (∀ r, cr = .ok r →
      (chaseExecute cr).success = true ∧
      (valTruthy ((findKey r "is_sufficient").getD .vNone) = true →
        (chaseExecute cr).data = some [("integrity_ok", .vBool true)]) ∧
      (valTruthy ((findKey r "is_sufficient").getD .vNone) = false →
        (chaseExecute cr).data = some
          [("integrity_ok", .vBool false),
           ("suggested_question", (findKey r "suggested_question").getD .vNone),
           ("suggested_options", (findKey r "suggested_options").getD (.vList [])),
           ("is_wait_user", .vBool true)])) ∧
    (∀ e, cr = .error e → (chaseExecute cr).success = false ∧
      (chaseExecute cr).data = none ∧
      (chaseExecute cr).error_msg = some e) := by
  constructor
  · intro r hr
    subst hr
    by_cases hsuf : valTruthy ((findKey r "is_sufficient").getD .vNone) = true
    · refine ⟨?_, fun _ => ?_, fun hc => ?_⟩ <;>
        simp [chaseExecute, check_and_chase, hsuf] at *
    · have hsuf' : valTruthy ((findKey r "is_sufficient").getD .vNone) = false := by
        simpa using hsuf
      refine ⟨?_, fun hc => ?_, fun _ => ?_⟩ <;>
        simp [chaseExecute, check_and_chase, hsuf'] at *
  · intro e he
    subst he
    exact ⟨rfl, rfl, rfl⟩

/-- Witness for C8: both returning sub-cases and the exception case evaluated
concretely. -/
theorem chase_outcome_policy_witness :
    (chaseExecute (.ok [("is_sufficient", .vBool true)])).success = true ∧
    (chaseExecute (.ok [("is_sufficient", .vBool false),
      ("suggested_question", .vStr "which year?")])).data = some
        [("integrity_ok", .vBool false),
         ("suggested_question", .vStr "which year?"),
         ("suggested_options", .vList []),
         ("is_wait_user", .vBool true)] ∧
    (chaseExecute (.error "boom")).success = false :=
  ⟨((chase_outcome_policy (.ok [("is_sufficient", .vBool true)])).1 _ rfl).1,
   ((chase_outcome_policy (.ok [("is_sufficient", .vBool false),
      ("suggested_question", .vStr "which year?")])).1 _ rfl).2.2 rfl,
   ((chase_outcome_policy (.error "boom")).2 "boom" rfl).1⟩

theorem setKey_ne_nil (d : Dict) (k : String) (v : Val) : setKey d k v ≠ [] := by
  cases d with
  | nil => simp [setKey]
  | cons kv rest =>
    obtain ⟨k0, v0⟩ := kv
    by_cases h : k0 = k <;> simp [setKey, h]

theorem foldl_setKey_ne_nil {α : Type} (f : Dict → α → Dict)
    (hf : ∀ d x, f d x ≠ []) (l : List α) (d : Dict) (hd : d ≠ []) :
    l.foldl f d ≠ [] := by
  induction l generalizing d with
  | nil => exact hd
  | cons x rest ih => exact ih (f d x) (hf d x)

theorem collectorResults_eq_nil_iff (items : List (String × ItemFate)) :
    collectorResults items = [] ↔ items = [] := by
  constructor
  · intro h
    cases items with
    | nil => rfl
    | cons it rest =>
      exfalso
      have hstep : ∀ (d : Dict) (x : String × ItemFate),
          (match x.2 with
            | .ragHit dd => setKey d x.1
                (.vDict [("data", .vStr dd), ("source", .vStr "RAG")])
            | .webHit dd => setKey d x.1
                (.vDict [("data", .vStr dd), ("source", .vStr "Web")])
            | .failed => setKey d x.1
                (.vDict [("data", .vStr "未找到"), ("source", .vStr "Failed")])) ≠
            ([] : Dict) := by
        intro d x
        cases x.2 <;> exact setKey_ne_nil _ _ _
      have : collectorResults (it :: rest) ≠ [] := by
        unfold collectorResults
        rw [List.foldl_cons]
        exact foldl_setKey_ne_nil _ hstep rest _ (hstep [] it)
      exact this h
  · intro h
    subst h
    rfl

/-- C5 counterexample: a plan whose single item fails both paths still yields
a `validated_data` entry (marked `source: Failed`), so the skill reports
`success = true` although the count of successfully collected items is zero. -/
theorem collect_success_counts_failed_entries :
    (searchExecute [("plan", .vDict [("required_info", .vList [])])]
      (.ok (collectorExecute [("item1", .failed)]))).success = true ∧
    countSuccessful (collectorResults [("item1", .failed)]) = 0 ∧
    findKey (collectorResults [("item1", .failed)]) "item1" =
      some (.vDict [("data", .vStr "未找到"), ("source", .vStr "Failed")]) :=
  ⟨rfl, rfl, rfl⟩

/-- C5 (amended): the collect skill reports `success = (number of
`validated_data` entries > 0)`, where every plan item — items marked
`source: Failed` included — produces exactly one entry; so success holds iff
the item list is non-empty, regardless of how many items actually succeeded. -/
theorem collect_success_condition (ctx : Dict) (plan : Val)
    (items : List (String × ItemFate))
    (hp : findKey ctx "plan" = some plan)
    (ht : valTruthy plan = true)
    (hri : hasKey (asDict plan) "required_info" = true) :
    (searchExecute ctx (.ok (collectorExecute items))).success =
      decide (0 < (collectorResults items).length) ∧
    ((searchExecute ctx (.ok (collectorExecute items))).success = true ↔
      items ≠ []) := by
  have hsucc : (searchExecute ctx (.ok (collectorExecute items))).success =
      decide (0 < (collectorResults items).length) := by
    unfold searchExecute
    rw [hp]
    simp only [Option.getD_some, ht, hri]
    rfl
  refine ⟨hsucc, ?_⟩
  rw [hsucc]
  rw [decide_eq_true_iff, List.length_pos, Ne, Ne,
    collectorResults_eq_nil_iff]

/-- Witness for C5 (amended): one failed item still makes the skill succeed. -/
theorem collect_success_condition_witness :
    (searchExecute [("plan", .vDict [("required_info", .vList [])])]
      (.ok (collectorExecute [("item1", .failed)]))).success = true :=
  ((collect_success_condition
      [("plan", .vDict [("required_info", .vList [])])]
      (.vDict [("required_info", .vList [])])
      [("item1", .failed)] rfl rfl rfl).2).2 (by simp)

/-- The data a SEARCH outcome can carry: nothing, or an enhanced payload
holding exactly the fields `collected_data` and `rag_details`. -/
theorem searchExecute_data_shape (ctx : Dict) (cr : Except String Dict) :
    (searchExecute ctx cr).data = none ∨
    ∃ vd rd, (searchExecute ctx cr).data =
      some [("collected_data", Val.vDict vd), ("rag_details", rd)] := by
  by_cases hg : (!valTruthy ((findKey ctx "plan").getD (.vDict [])) ||
      !hasKey (asDict ((findKey ctx "plan").getD (.vDict []))) "required_info") = true
  · left
    simp [searchExecute, hg]
  · simp only [Bool.not_eq_true] at hg
    cases cr with
    | error e =>
      left
      simp [searchExecute, hg]
    | ok res =>
      right
      simp only [searchExecute]
      rw [if_neg (by simp [hg])]
      exact ⟨_, _, rfl⟩

/-- C10: with `force_web=true` the effective plan's `required_info` is the
item list with every item's `source` set to `web_only` in a shallow copy —
each copied item keeps every other field — while the `plan` binding of the
run's context is untouched by the whole SEARCH step. -/
theorem force_web_frame :
    (∀ (plan : Dict) (items : List Val),
      findKey plan "required_info" = some (.vList items) →
      findKey (forceWebPlan plan) "required_info" =
        some (.vList (items.map fun it =>
          .vDict (setKey (asDict it) "source" (.vStr "web_only"))))) ∧
    (∀ it : Val,
      findKey (setKey (asDict it) "source" (.vStr "web_only")) "source" =
        some (.vStr "web_only") ∧
      ∀ k, k ≠ "source" →
        findKey (setKey (asDict it) "source" (.vStr "web_only")) k =
          findKey (asDict it) k) ∧
    (∀ (params plan : Dict),
      valTruthy ((findKey params "force_web").getD .vNone) = true →
      searchEffectivePlan params plan = forceWebPlan plan) ∧
    (∀ (s : AgentState) (a : Action) (cr : Except String Dict),
      findKey (updateState s a (searchExecute s.context cr)).context "plan" =
        findKey s.context "plan") := by
  refine ⟨?_, ?_, ?_, ?_⟩
  · intro plan items hri
    unfold forceWebPlan
    rw [hri]
    rfl
  · intro it
    exact ⟨findKey_setKey_self _ _ _,
      fun k hk => findKey_setKey_ne _ _ _ _ hk⟩
  · intro params plan hfw
    unfold searchEffectivePlan
    rw [if_pos hfw]
  · intro s a cr
    set obs := searchExecute s.context cr with hobs
    cases hb : (obs.success && dataTruthy obs.data) with
    | false => rw [updateState_context_frozen _ _ _ hb]
    | true =>
      rw [updateState_context_merge _ _ _ hb]
      rcases searchExecute_data_shape s.context cr with hN | ⟨vd, rd, hS⟩
      · rw [← hobs] at hN
        rw [hN] at hb
        simp [dataTruthy] at hb
      · rw [← hobs] at hS
        have hcd : findKey (obs.data.getD []) "collected_data" =
            some (.vDict vd) := by
          rw [hS]
          simp [findKey]
        exact mergeOutcome_findKey_cdPayload_other _ _ _ _ hcd (by decide)

/-- Witness for C10: a two-field plan item keeps its `desc` and gets
`source = web_only`; a SEARCH step leaves the context's `plan` binding
untouched. -/
theorem force_web_frame_witness :
    findKey (forceWebPlan [("required_info",
      .vList [.vDict [("desc", .vStr "x"), ("source", .vStr "rag")]])])
      "required_info" =
      some (.vList [.vDict [("desc", .vStr "x"), ("source", .vStr "web_only")]]) ∧
    findKey (updateState ⟨"q", [("plan", .vDict [("required_info", .vList
        [.vDict [("desc", .vStr "x")]])])], [], 2, 0⟩ ⟨.SEARCH_WEB, [], ""⟩
      (searchExecute [("plan", .vDict [("required_info", .vList
        [.vDict [("desc", .vStr "x")]])])]
        (.ok (collectorExecute [("x", .webHit "w")])))).context "plan" =
      some (.vDict [("required_info", .vList [.vDict [("desc", .vStr "x")]])]) := by
  constructor
  · have := force_web_frame.1
      [("required_info", .vList [.vDict [("desc", .vStr "x"), ("source", .vStr "rag")]])]
      [.vDict [("desc", .vStr "x"), ("source", .vStr "rag")]] rfl
    rw [this]
    rfl
  · have := force_web_frame.2.2.2 ⟨"q", [("plan", .vDict [("required_info",
      .vList [.vDict [("desc", .vStr "x")]])])], [], 2, 0⟩ ⟨.SEARCH_WEB, [], ""⟩
      (.ok (collectorExecute [("x", .webHit "w")]))
    rw [this]
    rfl

/-- C6 counterexample: one successful REWRITE outcome with cost `0.01` is
folded in, yet `accumulated_reward` stays `0` and the reported
`total_reward` is `0`, strictly below the sum of executed costs. -/
theorem reward_not_accumulated :
    (updateState (initState "q") ⟨.REWRITE, [], ""⟩
      { success := true, data := some [("rewritten_query", .vStr "r")],
        cost := 1/100 }).accumulated_reward = 0 ∧
    (buildResult (updateState (initState "q") ⟨.REWRITE, [], ""⟩
      { success := true, data := some [("rewritten_query", .vStr "r")],
        cost := 1/100 })).total_reward = 0 ∧
    (0 : ℚ) <
      (⟨true, some [("rewritten_query", .vStr "r")], 1/100, none⟩ :
        Observation).cost := by
  refine ⟨rfl, rfl, by norm_num⟩

/-- C6 (amended): `_update_state` never touches `accumulated_reward`; the
reported `total_reward` is the state's `accumulated_reward`, which stays `0`
for every reachable state of a run — costs are never summed into it. -/
theorem accumulated_reward_constant :
    (∀ (s : AgentState) (a : Action) (obs : Observation),
      (updateState s a obs).accumulated_reward = s.accumulated_reward) ∧
    (∀ s : AgentState, (buildResult s).total_reward = s.accumulated_reward) ∧
    (∀ (q : String) (s : AgentState), Reachable q s →
      s.accumulated_reward = 0) := by
  refine ⟨fun s a obs => updateState_reward s a obs, ?_, ?_⟩
  · intro s
    unfold buildResult
    by_cases h : hasKey s.context "suggested_question" = true <;> simp [h]
  · intro q s h
    induction h with
    | init => rfl
    | step hr hstep ih =>
      cases hstep with
      | mk a obs hmem hnf hobs => rw [updateState_reward, ih]

/-- Witness for C6 (amended): the fresh run state is reachable and reports
total reward `0`. -/
theorem accumulated_reward_constant_witness :
    (initState "q").accumulated_reward = 0 :=
  accumulated_reward_constant.2.2 "q" (initState "q") Reachable.init

/-! ### Payload keys and gate inversion, towards the clarification protocol -/

/-- The field names each skill's successful-or-failed payload can carry. -/
def skillPayloadKeys : ActionType → List String
  | .REWRITE => ["rewritten_query", "entities", "intent"]
  | .CHASE => ["integrity_ok", "suggested_question", "suggested_options",
      "is_wait_user"]
  | .PLAN => ["plan"]
  | .SEARCH_DB => ["collected_data", "rag_details"]
  | .SEARCH_WEB => ["collected_data", "rag_details"]
  | .SUMMARIZE => ["report", "is_complete", "missing"]
  | .FINISH => []

theorem skillObs_payload_keys {t : ActionType} {s : AgentState}
    {obs : Observation} (h : SkillObs t s obs) (d : Dict)
    (hd : obs.data = some d) (k : String) (hk : hasKey d k = true) :
    k ∈ skillPayloadKeys t := by
  cases h with
  | rewriteOk s r e i =>
    simp only [Option.some.injEq] at hd
    subst hd
    have := (hasKey_iff_mem_keys _ k).1 hk
    simp [skillPayloadKeys] at this ⊢
    tauto
  | rewriteErr s msg => simp at hd
  | chase s cr =>
    cases cr with
    | error e => simp [chaseExecute] at hd
    | ok r =>
      by_cases hsuf : valTruthy ((findKey r "is_sufficient").getD .vNone) = true
      · simp only [chaseExecute, check_and_chase, hsuf, if_pos,
          Option.some.injEq] at hd
        subst hd
        have := (hasKey_iff_mem_keys _ k).1 hk
        simp [skillPayloadKeys] at this ⊢
        tauto
      · simp only [Bool.not_eq_true] at hsuf
        simp only [chaseExecute, check_and_chase, hsuf, Bool.false_eq_true,
          if_false, Option.some.injEq] at hd
        subst hd
        have := (hasKey_iff_mem_keys _ k).1 hk
        simp [skillPayloadKeys] at this ⊢
        tauto
  | planOk s p =>
    simp only [Option.some.injEq] at hd
    subst hd
    have := (hasKey_iff_mem_keys _ k).1 hk
    simp [skillPayloadKeys] at this ⊢
    tauto
  | planErr s msg => simp at hd
  | search t s cr ht =>
    rcases searchExecute_data_shape s.context cr with hN | ⟨vd, rd, hS⟩
    · rw [hN] at hd
      simp at hd
    · rw [hS] at hd
      simp only [Option.some.injEq] at hd
      subst hd
      have := (hasKey_iff_mem_keys _ k).1 hk
      rcases ht with ht | ht <;> subst ht <;>
        (simp [skillPayloadKeys] at this ⊢; tauto)
  | summarizeOk s rep =>
    simp only [Option.some.injEq] at hd
    subst hd
    have := (hasKey_iff_mem_keys _ k).1 hk
    simp [skillPayloadKeys] at this ⊢
    tauto
  | summarizeMissing s m msg =>
    simp only [Option.some.injEq] at hd
    subst hd
    have := (hasKey_iff_mem_keys _ k).1 hk
    simp [skillPayloadKeys] at this ⊢
    tauto
  | summarizeErr s msg => simp at hd

/-- If CHASE is legal then neither `integrity_ok` nor `suggested_question`
is present. -/
theorem available_chase_inv (s : AgentState)
    (h : ActionType.CHASE ∈ getAvailableActions s) :
    hasKey s.context "integrity_ok" = false ∧
    hasKey s.context "suggested_question" = false := by
  rcases h1 : hasKey s.context "rewritten_query" with _ | _ <;>
  rcases h2 : hasKey s.context "integrity_ok" with _ | _ <;>
  rcases h3 : hasKey s.context "suggested_question" with _ | _ <;>
  rcases h4 : hasKey s.context "plan" with _ | _ <;>
  rcases h5 : hasKey s.context "collected_data" with _ | _ <;>
    simp [getAvailableActions, h1, h2, h3, h4, h5] at h ⊢

/-- If SUMMARIZE is legal then `integrity_ok` is present and
`suggested_question` is not. -/
theorem available_summarize_inv (s : AgentState)
    (h : ActionType.SUMMARIZE ∈ getAvailableActions s) :
    hasKey s.context "integrity_ok" = true ∧
    hasKey s.context "suggested_question" = false := by
  rcases h1 : hasKey s.context "rewritten_query" with _ | _ <;>
  rcases h2 : hasKey s.context "integrity_ok" with _ | _ <;>
  rcases h3 : hasKey s.context "suggested_question" with _ | _ <;>
  rcases h4 : hasKey s.context "plan" with _ | _ <;>
  rcases h5 : hasKey s.context "collected_data" with _ | _ <;>
    simp [getAvailableActions, h1, h2, h3, h4, h5] at h ⊢

/-- Only SUMMARIZE can put a `report` field in a payload. -/
theorem payload_key_report {t : ActionType}
    (h : "report" ∈ skillPayloadKeys t) : t = .SUMMARIZE := by
  cases t <;> first | rfl | simp [skillPayloadKeys] at h

/-- Only CHASE can put a `suggested_question` field in a payload. -/
theorem payload_key_sq {t : ActionType}
    (h : "suggested_question" ∈ skillPayloadKeys t) : t = .CHASE := by
  cases t <;> first | rfl | simp [skillPayloadKeys] at h

/-- Inductive invariant behind the clarification protocol: a report implies a
passed integrity check, and a pending clarification question excludes a
report. -/
def ContextInv (ctx : Dict) : Prop :=
  (hasKey ctx "report" = true → hasKey ctx "integrity_ok" = true) ∧
  (hasKey ctx "suggested_question" = true → hasKey ctx "report" = false)

theorem contextInv_step {s s' : AgentState} (hstep : LoopStep s s')
    (hinv : ContextInv s.context) : ContextInv s'.context := by
  cases hstep with
  | mk a obs hmem hnf hobs =>
    cases hb : (obs.success && dataTruthy obs.data) with
    | false =>
      rw [updateState_context_frozen _ _ _ hb]
      exact hinv
    | true =>
      rw [updateState_context_merge _ _ _ hb]
      have hsome : ∃ d, obs.data = some d := by
        cases hdata : obs.data with
        | none => rw [hdata] at hb; simp [dataTruthy] at hb
        | some d => exact ⟨d, rfl⟩
      obtain ⟨d, hd⟩ := hsome
      have hgd : obs.data.getD [] = d := by rw [hd]; rfl
      rw [hgd]
      constructor
      · intro hrep
        rcases mergeOutcome_hasKey_cases _ _ _ hrep with hc | hc | hc
        · exact mergeOutcome_hasKey_mono _ _ _ (hinv.1 hc)
        · exact absurd hc (by decide)
        · have hkey := skillObs_payload_keys hobs d hd "report" hc
          have hts : a.type = .SUMMARIZE := payload_key_report hkey
          have hio := (available_summarize_inv s (hts ▸ hmem)).1
          exact mergeOutcome_hasKey_mono _ _ _ hio
      · intro hsq
        cases hrep : hasKey (mergeOutcome s.context d) "report" with
        | false => rfl
        | true =>
          exfalso
          rcases mergeOutcome_hasKey_cases _ _ _ hrep with hc | hc | hc
          · rcases mergeOutcome_hasKey_cases _ _ _ hsq with hs | hs | hs
            · rw [hinv.2 hs] at hc
              simp at hc
            · exact absurd hs (by decide)
            · have hkey := skillObs_payload_keys hobs d hd
                "suggested_question" hs
              have htc : a.type = .CHASE := payload_key_sq hkey
              have hio := (available_chase_inv s (htc ▸ hmem)).1
              rw [hinv.1 hc] at hio
              simp at hio
          · exact absurd hc (by decide)
          · have hkey := skillObs_payload_keys hobs d hd "report" hc
            have hts : a.type = .SUMMARIZE := payload_key_report hkey
            have hsqf := (available_summarize_inv s (hts ▸ hmem)).2
            rcases mergeOutcome_hasKey_cases _ _ _ hsq with hs | hs | hs
            · rw [hs] at hsqf
              simp at hsqf
            · exact absurd hs (by decide)
            · have hkey2 := skillObs_payload_keys hobs d hd
                "suggested_question" hs
              rw [hts] at hkey2
              simp [skillPayloadKeys] at hkey2

theorem contextInv_reachable (q : String) (s : AgentState)
    (h : Reachable q s) : ContextInv s.context := by
  induction h with
  | init => exact ⟨by intro hc; simp [initState, hasKey, findKey] at hc,
      by intro hc; simp [initState, hasKey, findKey] at hc⟩
  | step hr hstep ih => exact contextInv_step hstep ih

/-- C9: whenever a run terminates in a reachable state whose context holds
`suggested_question`, the returned result has status `need_input`, carries
that question and the (possibly empty) suggested options, and no `report` key
was ever set in the context. -/
theorem clarification_protocol (q : String) (s : AgentState)
    (h : Reachable q s)
    (hsq : hasKey s.context "suggested_question" = true) :
    (buildResult s).status = "need_input" ∧
    (buildResult s).clarification_question =
      findKey s.context "suggested_question" ∧
    (buildResult s).clarification_options =
      some ((findKey s.context "suggested_options").getD (.vList [])) ∧
    hasKey s.context "report" = false := by
  have hinv := contextInv_reachable q s h
  refine ⟨?_, ?_, ?_, hinv.2 hsq⟩ <;> simp [buildResult, hsq]

/-- Witness for C9: the concrete run REWRITE-then-CHASE(insufficient) reaches
a state with the pending question `which year?`; the built result reports
`need_input`, the question, and no report. -/
theorem clarification_protocol_witness :
    (buildResult (updateState
      (updateState (initState "Q1") ⟨.REWRITE, [], ""⟩
        { success := true,
          data := some [("rewritten_query", .vStr "Q1x"),
            ("entities", .vList []), ("intent", .vDict [])],
          cost := 1/100 })
      ⟨.CHASE, [], ""⟩
      (chaseExecute (.ok [("is_sufficient", .vBool false),
        ("suggested_question", .vStr "which year?")])))).status =
      "need_input" ∧
    (buildResult (updateState
      (updateState (initState "Q1") ⟨.REWRITE, [], ""⟩
        { success := true,
          data := some [("rewritten_query", .vStr "Q1x"),
            ("entities", .vList []), ("intent", .vDict [])],
          cost := 1/100 })
      ⟨.CHASE, [], ""⟩
      (chaseExecute (.ok [("is_sufficient", .vBool false),
        ("suggested_question", .vStr "which year?")])))).clarification_question =
      some (.vStr "which year?") ∧
    hasKey (updateState
      (updateState (initState "Q1") ⟨.REWRITE, [], ""⟩
        { success := true,
          data := some [("rewritten_query", .vStr "Q1x"),
            ("entities", .vList []), ("intent", .vDict [])],
          cost := 1/100 })
      ⟨.CHASE, [], ""⟩
      (chaseExecute (.ok [("is_sufficient", .vBool false),
        ("suggested_question", .vStr "which year?")]))).context "report" =
      false := by
  have hstep1 : LoopStep (initState "Q1")
      (updateState (initState "Q1") ⟨.REWRITE, [], ""⟩
        { success := true,
          data := some [("rewritten_query", .vStr "Q1x"),
            ("entities", .vList []), ("intent", .vDict [])],
          cost := 1/100 }) :=
    LoopStep.mk _ _ _ (by decide) (by decide)
      (SkillObs.rewriteOk _ (.vStr "Q1x") (.vList []) (.vDict []))
  have hstep2 : LoopStep
      (updateState (initState "Q1") ⟨.REWRITE, [], ""⟩
        { success := true,
          data := some [("rewritten_query", .vStr "Q1x"),
            ("entities", .vList []), ("intent", .vDict [])],
          cost := 1/100 })
      (updateState
        (updateState (initState "Q1") ⟨.REWRITE, [], ""⟩
          { success := true,
            data := some [("rewritten_query", .vStr "Q1x"),
              ("entities", .vList []), ("intent", .vDict [])],
            cost := 1/100 })
        ⟨.CHASE, [], ""⟩
        (chaseExecute (.ok [("is_sufficient", .vBool false),
          ("suggested_question", .vStr "which year?")]))) :=
    LoopStep.mk _ _ _ (by decide) (by decide) (SkillObs.chase _ _)
  have hreach := Reachable.step (Reachable.step Reachable.init hstep1) hstep2
  have h := clarification_protocol "Q1" _ hreach rfl
  refine ⟨h.1, ?_, h.2.2.2⟩
  rw [h.2.1]
  rfl

end Jinrong
